import Mathlib

/-!
Verification development for the push-notifier repository.

The Python sources (main.py, src/push.py, src/events.py, src/db.py) are
embedded shallowly below:

* instants are modelled as minutes since 1970-01-01 00:00 in Rome wall
  time; the Europe/Rome zone is modelled as the fixed offset +60 minutes
  (CET); times are modelled at minute resolution;
* the ISO-8601 parsing done by datetime.fromisoformat is modelled by a
  parser for the grammar YYYY-MM-DD[THH:MM[:SS]][+HH:MM|-HH:MM|Z];
  strings outside this grammar are parse failures;
* network and database effects are modelled by explicit oracles
  (PostEnv) describing, per POST, the HTTP status or a transport
  exception, and whether the dedup-store write raises (the failure is
  modelled at connection setup, before any row is written);
* Python exceptions escaping a function are modelled with Except.
-/

/-! ## Calendar arithmetic (proleptic Gregorian, Hinnant day counts) -/

def isLeap (y : Nat) : Bool :=
  (y % 4 == 0 && y % 100 != 0) || y % 400 == 0

def daysInMonth (y m : Nat) : Nat :=
  if m == 2 then (if isLeap y then 29 else 28)
  else if m == 4 || m == 6 || m == 9 || m == 11 then 30
  else 31

/-- Days since 0000-03-01 of a civil date (valid for `y ≥ 1`). -/
def daysFromCivilN (y m d : Nat) : Nat :=
  let y1 := if m ≤ 2 then y - 1 else y
  let era := y1 / 400
  let yoe := y1 % 400
  let mp := if m > 2 then m - 3 else m + 9
  let doy := (153 * mp + 2) / 5 + d - 1
  let doe := yoe * 365 + yoe / 4 - yoe / 100 + doy
  era * 146097 + doe

structure PyDate where
  year : Nat
  month : Nat
  day : Nat
deriving DecidableEq, Repr

/-- Inverse of `daysFromCivilN`: civil date of a day count since 0000-03-01. -/
def civilFromDaysN (z : Nat) : PyDate :=
  let era := z / 146097
  let doe := z % 146097
  let yoe := (doe - doe / 1460 + doe / 36524 - doe / 146096) / 365
  let y := yoe + era * 400
  let doy := doe - (365 * yoe + yoe / 4 - yoe / 100)
  let mp := (5 * doy + 2) / 153
  let d := doy - (153 * mp + 2) / 5 + 1
  let m := if mp < 10 then mp + 3 else mp - 9
  ⟨if m ≤ 2 then y + 1 else y, m, d⟩

def epochDays : Nat := daysFromCivilN 1970 1 1

/-- Fixed model of the Europe/Rome utc offset, in minutes (CET). -/
def romeOffMin : Int := 60

/-- Rome-wall minutes since the epoch of a civil date plus wall time of day. -/
def civilMinutes (d : PyDate) (h mi : Nat) : Int :=
  ((daysFromCivilN d.year d.month d.day : Int) - (epochDays : Int)) * 1440
    + (h * 60 + mi : Nat)

/-- Civil date of a Rome-wall minute count (valid from year 1 on). -/
def civilOfMinutes (t : Int) : PyDate :=
  civilFromDaysN (t.fdiv 1440 + (epochDays : Int)).toNat

/-- Minute of the day of a Rome-wall minute count. -/
def minuteOfDay (t : Int) : Nat := (t.emod 1440).toNat

/-- The civil date one day after `d` (datetime.date + timedelta(days=1)). -/
def dateAfter (d : PyDate) : PyDate :=
  civilFromDaysN (daysFromCivilN d.year d.month d.day + 1)

/-! ## Digit parsing and strftime-style formatting -/

/-- Two-decimal-digit field, returning the value and the rest. -/
def twoDigits : List Char → Option (Nat × List Char)
  | a :: b :: rest =>
    if a.isDigit && b.isDigit then
      some ((a.toNat - 48) * 10 + (b.toNat - 48), rest)
    else none
  | _ => none

/-- Four-decimal-digit field, returning the value and the rest. -/
def fourDigits : List Char → Option (Nat × List Char)
  | a :: b :: c :: d :: rest =>
    if a.isDigit && b.isDigit && c.isDigit && d.isDigit then
      some (((a.toNat - 48) * 1000 + (b.toNat - 48) * 100
              + (c.toNat - 48) * 10 + (d.toNat - 48)), rest)
    else none
  | _ => none

def validDate (y m d : Nat) : Bool :=
  1 ≤ y && y ≤ 9999 && 1 ≤ m && m ≤ 12 && 1 ≤ d && d ≤ daysInMonth y m

/-- Zero-padded two-digit rendering (strftime %d, %m, %H, %M). -/
def two (n : Nat) : String :=
  (if n < 10 then "0" else "") ++ toString n

/-- Zero-padded four-digit rendering (strftime %Y). -/
def four (n : Nat) : String :=
  (if n < 10 then "000" else if n < 100 then "00" else if n < 1000 then "0" else "")
    ++ toString n

/-- strftime "%d/%m/%Y". -/
def fmtSlash (d : PyDate) : String :=
  two d.day ++ "/" ++ two d.month ++ "/" ++ four d.year

/-- strftime "%d/%m". -/
def fmtShort (d : PyDate) : String :=
  two d.day ++ "/" ++ two d.month

/-- strftime "%H:%M" of a minute of the day. -/
def fmtHM (t : Nat) : String :=
  two (t / 60) ++ ":" ++ two (t % 60)

/-! ## strptime and fromisoformat models -/

/-- datetime.strptime(s, "%Y-%m-%d"), validation included. -/
def strptimeYMD (s : String) : Option PyDate :=
  match fourDigits s.data with
  | some (y, '-' :: r1) =>
    match twoDigits r1 with
    | some (m, '-' :: r2) =>
      match twoDigits r2 with
      | some (d, []) => if validDate y m d then some ⟨y, m, d⟩ else none
      | _ => none
    | _ => none
  | _ => none

/-- datetime.strptime(s, "%d/%m/%Y"), validation included. -/
def strptimeDMY (s : String) : Option PyDate :=
  match twoDigits s.data with
  | some (d, '/' :: r1) =>
    match twoDigits r1 with
    | some (m, '/' :: r2) =>
      match fourDigits r2 with
      | some (y, []) => if validDate y m d then some ⟨y, m, d⟩ else none
      | _ => none
    | _ => none
  | _ => none

structure ISORes where
  date : PyDate
  hour : Nat
  minute : Nat
  off : Option Int
deriving DecidableEq, Repr

/-- Offset suffix of an ISO string: nothing, Z, or +HH:MM / -HH:MM. -/
def parseOffset : List Char → Option (Option Int)
  | [] => some none
  | ['Z'] => some (some 0)
  | '+' :: r =>
    match twoDigits r with
    | some (oh, ':' :: r2) =>
      match twoDigits r2 with
      | some (om, []) => if oh < 24 && om < 60 then some (some (oh * 60 + om)) else none
      | _ => none
    | _ => none
  | '-' :: r =>
    match twoDigits r with
    | some (oh, ':' :: r2) =>
      match twoDigits r2 with
      | some (om, []) => if oh < 24 && om < 60 then some (some (-(oh * 60 + om : Nat))) else none
      | _ => none
    | _ => none
  | _ => none

/-- Optional seconds field ":SS" (value validated, then discarded). -/
def parseSeconds : List Char → Option (List Char)
  | ':' :: r =>
    match twoDigits r with
    | some (s, r2) => if s < 60 then some r2 else none
    | _ => none
  | r => some r

/-- Time-of-day part "THH:MM[:SS][offset]" of an ISO string. -/
def parseTimePart : List Char → Option (Nat × Nat × Option Int)
  | [] => some (0, 0, none)
  | 'T' :: r =>
    match twoDigits r with
    | some (h, ':' :: r1) =>
      match twoDigits r1 with
      | some (mi, r2) =>
        if h < 24 && mi < 60 then
          match parseSeconds r2 with
          | some r3 =>
            match parseOffset r3 with
            | some off => some (h, mi, off)
            | none => none
          | none => none
        else none
      | _ => none
    | _ => none
  | _ => none

/-- Model of datetime.fromisoformat on the grammar
YYYY-MM-DD[THH:MM[:SS]][+HH:MM|-HH:MM|Z]. -/
def parseISO (s : String) : Option ISORes :=
  match fourDigits s.data with
  | some (y, '-' :: r1) =>
    match twoDigits r1 with
    | some (m, '-' :: r2) =>
      match twoDigits r2 with
      | some (d, r3) =>
        if validDate y m d then
          match parseTimePart r3 with
          | some (h, mi, off) => some ⟨⟨y, m, d⟩, h, mi, off⟩
          | none => none
        else none
      | _ => none
    | _ => none
  | _ => none

/-- Parse an ISO string and express it in Rome wall minutes: an aware
value is converted (astimezone), a naive one is localized in Rome. -/
def isoRomeWall (s : String) : Option Int :=
  match parseISO s with
  | some r =>
    let wall := civilMinutes r.date r.hour r.minute
    some (match r.off with
          | some o => wall - o + romeOffMin
          | none => wall)
  | none => none

/-! ## The Event record (one CSV row, plus ephemeral display fields) -/

structure Event where
  uid : String := ""
  summary : Option String := none
  startDateTime : Option String := none
  startDate : Option String := none
  endDateTime : Option String := none
  endDate : Option String := none
  htmlLink : Option String := none
  formattedTime : Option String := none
  formattedEndTime : Option String := none
deriving DecidableEq, Repr

/-- Python truthiness of an optional string field: present and non-empty. -/
def tstr : Option String → Option String
  | some s => if s.isEmpty then none else some s
  | none => none

/-! ## main.py: event_start_dt, in_day, format_event_for_display -/

/-- main.py event_start_dt: aware start instant in Rome wall minutes,
preferring start.dateTime (parse failure resolves to none, with no
fallback to start.date), else start.date at local midnight, else none. -/
def event_start_dt (e : Event) : Option Int :=
  match tstr e.startDateTime with
  | some s => isoRomeWall s
  | none =>
    match tstr e.startDate with
    | some s =>
      match strptimeYMD s with
      | some d => some (civilMinutes d 0 0)
      | none => none
    | none => none

/-- main.py in_day: the resolved start lies in the 24h window. -/
def in_day (e : Event) (dayStart : Int) : Bool :=
  match event_start_dt e with
  | some t => decide (dayStart ≤ t) && decide (t < dayStart + 1440)
  | none => false

/-- Local midnight of the instant (now.replace(hour=0, ...)). -/
def todayStartOf (now : Int) : Int := now - now.emod 1440

/-- Minute-of-day of the instant (now.time() at minute resolution). -/
def nowTimeOf (now : Int) : Nat := (now.emod 1440).toNat

/-- Step of format_event_for_display on start.date: none signals a
raised parse error. -/
def fmtStartDateStep (e : Event) : Option Event :=
  match tstr e.startDate with
  | some s =>
    match strptimeYMD s with
    | some d => some { e with startDate := some (fmtSlash d) }
    | none => none
  | none => some e

/-- Step of format_event_for_display on end.date. -/
def fmtEndDateStep (e : Event) : Option Event :=
  match tstr e.endDate with
  | some s =>
    match strptimeYMD s with
    | some d => some { e with endDate := some (fmtSlash d) }
    | none => none
  | none => some e

/-- Step of format_event_for_display on start.dateTime: the ISO value
is kept and the rendered time is stored next to it. -/
def fmtStartDTStep (e : Event) : Option Event :=
  match tstr e.startDateTime with
  | some s =>
    match isoRomeWall s with
    | some t => some { e with formattedTime := some (fmtHM (minuteOfDay t)) }
    | none => none
  | none => some e

/-- Step of format_event_for_display on end.dateTime: the field is
replaced by the rendered time. -/
def fmtEndDTStep (e : Event) : Option Event :=
  match tstr e.endDateTime with
  | some s =>
    match isoRomeWall s with
    | some t => some { e with endDateTime := some (fmtHM (minuteOfDay t)) }
    | none => none
  | none => some e

/-- main.py format_event_for_display: a copy with reformatted date and
time fields.  The Python body mutates the copy field by field inside one
try, so a parse failure keeps the updates already made and abandons the
rest. -/
def formatEventForDisplay (e : Event) : Event :=
  match fmtStartDateStep e with
  | none => e
  | some e1 =>
    match fmtEndDateStep e1 with
    | none => e1
    | some e2 =>
      match fmtStartDTStep e2 with
      | none => e2
      | some e3 =>
        match fmtEndDTStep e3 with
        | none => e3
        | some e4 => e4


/-! ## events.py: keyword filter and sent-event removal -/

/-- A word character in the sense of the regex class backslash-w
(ASCII fragment): alphanumeric or underscore. -/
def isW (c : Char) : Bool := c.isAlphanum || c == '_'

def wOptB : Option Char → Bool
  | some c => isW c
  | none => false

/-- A word boundary of the regex engine at position i of s: the
wordness of the characters around the position differs (out of range
counts as non-word). -/
def boundaryAt (s : List Char) (i : Nat) : Bool :=
  (wOptB (if i == 0 then none else s.get? (i - 1))) != wOptB (s.get? i)

/-- kw is a prefix of s (plain Boolean prefix test). -/
def isPfx : List Char → List Char → Bool
  | [], _ => true
  | _ :: _, [] => false
  | a :: as, b :: bs => a == b && isPfx as bs

/-- The pattern boundary-kw-boundary matches in s at position i. -/
def bMatchAt (s kw : List Char) (i : Nat) : Bool :=
  boundaryAt s i && isPfx kw (s.drop i) && boundaryAt s (i + kw.length)

/-- re.search of the pattern boundary-escaped(kw)-boundary in s: some
position of s admits a match. -/
def wordSearch (s kw : List Char) : Bool :=
  (List.range (s.length + 1)).any (fun i => bMatchAt s kw i)

/-- Split a character list at each single space, like splitOn with a
one-space separator (adjacent separators give empty pieces). -/
def splitSpace : List Char → List Char → List (List Char)
  | [], acc => [acc.reverse]
  | c :: rest, acc =>
    if c == ' ' then acc.reverse :: splitSpace rest []
    else splitSpace rest (c :: acc)

/-- events.py: replace every non-alphanumeric character with a space,
collapse whitespace runs to one space and strip the ends. -/
def normalizeTitle (s : String) : String :=
  let repl := s.data.map (fun c => if c.isAlphanum then c else ' ')
  String.intercalate " "
    (((splitSpace repl []).map String.mk).filter (fun w => !w.isEmpty))

/-- str.lower of the ASCII fragment, at the character-list level. -/
def lowerChars (s : String) : List Char := s.data.map Char.toLower

/-- One keyword against the normalized title, both lowercased, as the
regex word-bounded search does. -/
def kwMatchTitle (title kw : String) : Bool :=
  wordSearch (lowerChars title) (lowerChars kw)

/-- events.py filter_events_kw: empty keyword list filters to nothing;
otherwise keep the events whose normalized summary matches some
keyword (a missing summary raises KeyError, caught, leaving the title
empty). -/
def filter_events_kw (events : List Event) (keywords : List String) : List Event :=
  if keywords.isEmpty then []
  else events.filter (fun evt =>
    let title := match evt.summary with
      | some s => normalizeTitle s
      | none => ""
    keywords.any (fun kw => kwMatchTitle title kw))

/-- events.py remove_sent_events: drop the events whose uid is in the
sent list. -/
def remove_sent_events (events : List Event) (sent : List String) : List Event :=
  events.filter (fun e => !(sent.contains e.uid))

/-! ## push.py: per-event date resolution and body building -/

structure PED where
  startDateP : Option PyDate
  startTimeP : Option String
  endDateP : Option PyDate
  endTimeP : Option String
deriving DecidableEq, Repr

/-- push.py _parse_event_datetime: defensive resolution of
(start_date, start_time, end_date, end_time) from the event fields.  A
dateTime without a T, or one that fails to parse, is carried over as
the raw time string; a date field that fails to parse leaves the value
already obtained from the dateTime in place. -/
def parseEventDatetime (ev : Event) : PED :=
  let sdt : Option PyDate × String :=
    match tstr ev.startDateTime with
    | some s =>
      if s.data.contains 'T' then
        match isoRomeWall s with
        | some t => (some (civilOfMinutes t), fmtHM (minuteOfDay t))
        | none => (none, s)
      else (none, s)
    | none => (none, "")
  let sd1 : Option PyDate :=
    match tstr ev.startDate with
    | some s =>
      if s.data.contains '-' then
        match strptimeYMD s with
        | some d => some d
        | none => sdt.1
      else if s.data.contains '/' then
        match strptimeDMY s with
        | some d => some d
        | none => sdt.1
      else sdt.1
    | none => sdt.1
  let edt : Option PyDate × String :=
    match tstr ev.endDateTime with
    | some s =>
      if s.data.contains 'T' then
        match isoRomeWall s with
        | some t => (some (civilOfMinutes t), fmtHM (minuteOfDay t))
        | none => (none, s)
      else (none, s)
    | none => (none, "")
  let ed1 : Option PyDate :=
    match tstr ev.endDate with
    | some s =>
      if s.data.contains '-' then
        match strptimeYMD s with
        | some d => some d
        | none => edt.1
      else if s.data.contains '/' then
        match strptimeDMY s with
        | some d => some d
        | none => edt.1
      else edt.1
    | none => edt.1
  ⟨sd1, if sdt.2 == "" then none else some sdt.2,
   ed1, if edt.2 == "" then none else some edt.2⟩

/-- Python whitespace for str.strip (ASCII fragment). -/
def isSpaceCh (c : Char) : Bool :=
  c == ' ' || c == Char.ofNat 9 || c == Char.ofNat 10 || c == Char.ofNat 13
    || c == Char.ofNat 11 || c == Char.ofNat 12

/-- str.strip: drop leading and trailing whitespace. -/
def trimStr (s : String) : String :=
  String.mk (((s.data.dropWhile isSpaceCh).reverse.dropWhile isSpaceCh).reverse)

/-- Day label of push.py _build_body_for_event: Oggi, Domani or DD/MM. -/
def dayLabelFor (d today tomorrow : PyDate) : String :=
  if d == today then "Oggi" else if d == tomorrow then "Domani" else fmtShort d

/-- Same-calendar-day rendering branch (the day label is always a
non-empty string here, so the branch always renders). -/
def sameDayBody (lbl : String) (st et : Option String) (summary : String) : String :=
  match st, et with
  | some a, some b => lbl ++ " " ++ a ++ " - " ++ b ++ ": " ++ summary
  | some a, none => lbl ++ " " ++ a ++ ": " ++ summary
  | none, _ => lbl ++ ": " ++ summary

/-- push.py _build_body_for_event. -/
def buildBodyForEvent (ev : Event) (today tomorrow : PyDate) : String :=
  let p := parseEventDatetime ev
  let st := match tstr ev.formattedTime with
    | some f => some f
    | none => p.startTimeP
  let fEnd := match tstr ev.formattedEndTime with
    | some f => some f
    | none => tstr ev.endDateTime
  let et := match fEnd with
    | some f => if f.data.contains ':' then some f else p.endTimeP
    | none => p.endTimeP
  let summary := trimStr (ev.summary.getD "")
  match p.startDateP, p.endDateP with
  | some sd, none => sameDayBody (dayLabelFor sd today tomorrow) st et summary
  | some sd, some ed =>
    if sd == ed then sameDayBody (dayLabelFor sd today tomorrow) st et summary
    else
      match st, et with
      | some a, some b =>
        fmtShort sd ++ " " ++ a ++ " - " ++ fmtShort ed ++ " " ++ b ++ ": " ++ summary
      | _, _ => fmtShort sd ++ " - " ++ fmtShort ed ++ ": " ++ summary
  | none, some ed =>
    let lbl := dayLabelFor ed today tomorrow
    match et with
    | some b => lbl ++ " " ++ b ++ ": " ++ summary
    | none => lbl ++ ": " ++ summary
  | none, none =>
    match st, et with
    | some a, some b => a ++ " - " ++ b ++ ": " ++ summary
    | some a, none => a ++ ": " ++ summary
    | none, _ => summary


/-! ## push.py: POST plus dedup-store write, and the send dispatcher -/

inductive PyErr where
  | indexError
deriving DecidableEq, Repr

/-- Outcome of one POST to the notify endpoint: an HTTP status, or a
transport-level exception. -/
inductive PostOutcome where
  | status (code : Nat)
  | exn
deriving DecidableEq, Repr

/-- Oracle for one _post_and_store call: the network outcome, and
whether the dedup-store write raises (modelled at connection setup,
before any row is written). -/
structure PostEnv where
  outcome : PostOutcome
  storeFails : Bool
deriving DecidableEq, Repr

/-- A status the backend uses to signal a removed subscription. -/
def removedStatus (c : Nat) : Bool := c == 403 || c == 404 || c == 410

structure PostRes where
  ok : Bool
  removed : Bool
  stored : List String
deriving DecidableEq, Repr

/-- push.py _post_and_store: ok iff status 200; removed iff status in
(403, 404, 410); sent records are written only when ok, the uid list
is non-empty, both ids are truthy and the store does not raise, and
only for truthy uids; every exception is caught. -/
def postAndStore (env : PostEnv) (idsTruthy : Bool) (uids : List String) : PostRes :=
  match env.outcome with
  | .exn => ⟨false, false, []⟩
  | .status c =>
    let ok := c == 200
    let stored :=
      if ok && !uids.isEmpty && idsTruthy && !env.storeFails then
        uids.filter (fun u => u != "")
      else []
    ⟨ok, removedStatus c, stored⟩

structure Payload where
  title : String
  body : String
  url : String
  endpoint : String
deriving DecidableEq, Repr

/-- Effects of one send_push_notification call: the POSTs made in
order, and the uids recorded in the dedup ledger.  The Python return
value is ignored by main.py, so it is not modelled. -/
structure SendOutcome where
  posts : List Payload
  stored : List String
deriving DecidableEq, Repr

/-- The title of every last-minute POST. -/
def lmTitle : String :=
  "Nuova variazione dell" ++ String.singleton (Char.ofNat 39) ++ "orario!"

/-- The per-event last-minute loop of send_push_notification: one POST
per event, stopping after a removed-subscription status. -/
def lastMinuteLoop (env : Nat → PostEnv) (idsTruthy : Bool) (subEndpoint : String)
    (today tomorrow : PyDate) : Nat → List Event → List Payload × List String
  | _, [] => ([], [])
  | i, ev :: rest =>
    let body := buildBodyForEvent ev today tomorrow
    let url := match ev.htmlLink with
      | some s => s
      | none => "/dashboard?id=" ++ ev.uid
    let payload : Payload := ⟨lmTitle, body, url, subEndpoint⟩
    let uids := if ev.uid != "" then [ev.uid] else []
    let r := postAndStore (env i) idsTruthy uids
    if r.removed then ([payload], r.stored)
    else
      let rest' := lastMinuteLoop env idsTruthy subEndpoint today tomorrow (i + 1) rest
      (payload :: rest'.1, r.stored ++ rest'.2)

/-- push.py send_push_notification.  The Daily branch sends one
summary POST (aggregate body for more than one event, detailed body
for one); with zero events the Python indexes events[0] and raises
IndexError before any POST.  Any other type sends one POST per event
through the last-minute loop, which never raises. -/
def sendPushNotification (env : Nat → PostEnv) (idsTruthy : Bool)
    (subEndpoint : String) (events : List Event) (ntype : String)
    (today tomorrow : PyDate) : Except PyErr SendOutcome :=
  if ntype == "Daily Notification" then
    let count := events.length
    let word := if count == 1 then "evento" else "eventi"
    let title := s!"Daily Notification ({count} {word})"
    if count > 1 then
      let body := s!"Sono previsti {count} eventi."
      let payload : Payload := ⟨title, body, "/dashboard", subEndpoint⟩
      let uids := events.filterMap (fun e => if e.uid != "" then some e.uid else none)
      let r := postAndStore (env 0) idsTruthy uids
      .ok ⟨[payload], r.stored⟩
    else
      match events with
      | [] => .error .indexError
      | e0 :: _ =>
        let body := buildBodyForEvent e0 today tomorrow
        let url := match e0.htmlLink with
          | some s => s
          | none => "/dashboard?id=" ++ e0.uid
        let payload : Payload := ⟨title, body, url, subEndpoint⟩
        let uids := if e0.uid != "" then [e0.uid] else []
        let r := postAndStore (env 0) idsTruthy uids
        .ok ⟨[payload], r.stored⟩
  else
    let lm := lastMinuteLoop env idsTruthy subEndpoint today tomorrow 0 events
    .ok ⟨lm.1, lm.2⟩

/-! ## main.py: the per-subscriber dispatch loop -/

structure Subscriber where
  id : Nat
  deviceId : String
  endpoint : String
  email : String
  keywords : List String
  sendPushWithNotifications : Bool
  notificationDayBefore : Bool
  notificationTime : Nat
deriving DecidableEq, Repr

/-- The filtered candidate events for one subscriber device: keyword
filter, then removal of the already-sent uids. -/
def candidateEvents (ledger : Nat → String → List String) (events : List Event)
    (sub : Subscriber) : List Event :=
  remove_sent_events (filter_events_kw events sub.keywords)
    (ledger sub.id sub.deviceId)

/-- Which send_push_notification call (type and formatted payload
events) the branch tree of main.py makes for one subscriber, if any.
Every branch formats its events with format_event_for_display just
before sending. -/
def deadlineOf (t : Nat) : Nat := (t + 15) % 1440

def choosePayload (sub : Subscriber) (nowTime : Nat) (eT eTm : List Event) :
    Option (String × List Event) :=
  if sub.sendPushWithNotifications then
    if sub.notificationTime ≤ nowTime && nowTime ≤ deadlineOf sub.notificationTime then
      if sub.notificationDayBefore then
        some ("Daily Notification", (eT ++ eTm).map formatEventForDisplay)
      else if !eT.isEmpty then
        some ("Daily Notification", eT.map formatEventForDisplay)
      else none
    else
      if sub.notificationDayBefore then
        if deadlineOf sub.notificationTime < nowTime then
          some ("Last Minute Notification", (eT ++ eTm).map formatEventForDisplay)
        else if !eT.isEmpty then
          some ("Last Minute Notification", eT.map formatEventForDisplay)
        else none
      else if !eT.isEmpty then
        if deadlineOf sub.notificationTime < nowTime then
          some ("Last Minute Notification", eT.map formatEventForDisplay)
        else none
      else none
  else
    if !eT.isEmpty || !eTm.isEmpty then
      some ("Last Minute Notification", (eT ++ eTm).map formatEventForDisplay)
    else none

/-- Result of one iteration of the subscriber loop: increments to the
notifications and errors counters, the send call made (type and
payload events), and the dispatch effects. -/
structure SubOutcome where
  notifGain : Nat
  errGain : Nat
  calls : List (String × List Event)
  posts : List Payload
  stored : List String
deriving DecidableEq, Repr

/-- The today bucket of the candidate events. -/
def todayEvents (ledger : Nat → String → List String) (events : List Event)
    (sub : Subscriber) (now : Int) : List Event :=
  (candidateEvents ledger events sub).filter (fun e => in_day e (todayStartOf now))

/-- The tomorrow bucket of the candidate events. -/
def tomorrowEvents (ledger : Nat → String → List String) (events : List Event)
    (sub : Subscriber) (now : Int) : List Event :=
  (candidateEvents ledger events sub).filter (fun e => in_day e (todayStartOf now + 1440))

/-- The per-subscriber try around the send call: a normal return
counts one notification, a raised exception counts one error; an
IndexError is raised before any POST, so an erroring call has no
effects. -/
def dispatchResult (c : String × List Event) (x : Except PyErr SendOutcome) : SubOutcome :=
  match x with
  | .ok o => ⟨1, 0, [c], o.posts, o.stored⟩
  | .error _ => ⟨0, 1, [c], [], []⟩

/-- One iteration of the subscriber loop of main.py: fetch the sent
uids, filter, bucket into today and tomorrow, choose the branch, send,
and count a notification on return or an error on an exception. -/
def processSubscriber (env : Nat → PostEnv) (ledger : Nat → String → List String)
    (events : List Event) (now : Int) (sub : Subscriber) : SubOutcome :=
  let eT := todayEvents ledger events sub now
  let eTm := tomorrowEvents ledger events sub now
  let idsT := (sub.id != 0) && (sub.deviceId != "")
  match choosePayload sub (nowTimeOf now) eT eTm with
  | none => ⟨0, 0, [], [], []⟩
  | some (nt, pes) =>
    let nowDate := civilOfMinutes now
    dispatchResult (nt, pes)
      (sendPushNotification env idsT sub.endpoint pes nt nowDate (dateAfter nowDate))

/-- The whole subscriber loop, each subscriber with its own POST
oracle; one subscriber never aborts the others. -/
def runPassAux (envs : Nat → Nat → PostEnv) (ledger : Nat → String → List String)
    (events : List Event) (now : Int) : Nat → List Subscriber → List SubOutcome
  | _, [] => []
  | i, s :: rest =>
    processSubscriber (envs i) ledger events now s
      :: runPassAux envs ledger events now (i + 1) rest

def runPass (envs : Nat → Nat → PostEnv) (ledger : Nat → String → List String)
    (events : List Event) (now : Int) (subs : List Subscriber) : List SubOutcome :=
  runPassAux envs ledger events now 0 subs


/-! ## General lemmas about the embedding -/

theorem dispatchResult_calls (c : String × List Event) (x : Except PyErr SendOutcome) :
    (dispatchResult c x).calls = [c] := by
  cases x <;> rfl

theorem fmtStartDateStep_uid {e e1 : Event} (h : fmtStartDateStep e = some e1) :
    e1.uid = e.uid := by
  unfold fmtStartDateStep at h
  split at h
  · split at h
    · cases h; rfl
    · cases h
  · cases h; rfl

theorem fmtEndDateStep_uid {e e1 : Event} (h : fmtEndDateStep e = some e1) :
    e1.uid = e.uid := by
  unfold fmtEndDateStep at h
  split at h
  · split at h
    · cases h; rfl
    · cases h
  · cases h; rfl

theorem fmtStartDTStep_uid {e e1 : Event} (h : fmtStartDTStep e = some e1) :
    e1.uid = e.uid := by
  unfold fmtStartDTStep at h
  split at h
  · split at h
    · cases h; rfl
    · cases h
  · cases h; rfl

theorem fmtEndDTStep_uid {e e1 : Event} (h : fmtEndDTStep e = some e1) :
    e1.uid = e.uid := by
  unfold fmtEndDTStep at h
  split at h
  · split at h
    · cases h; rfl
    · cases h
  · cases h; rfl

theorem formatEventForDisplay_uid (e : Event) :
    (formatEventForDisplay e).uid = e.uid := by
  unfold formatEventForDisplay
  split
  · rfl
  case h_2 e1 h1 =>
    split
    · exact fmtStartDateStep_uid h1
    case h_2 e2 h2 =>
      split
      · exact (fmtEndDateStep_uid h2).trans (fmtStartDateStep_uid h1)
      case h_2 e3 h3 =>
        split
        · exact ((fmtStartDTStep_uid h3).trans (fmtEndDateStep_uid h2)).trans
            (fmtStartDateStep_uid h1)
        case h_2 e4 h4 =>
          exact (((fmtEndDTStep_uid h4).trans (fmtStartDTStep_uid h3)).trans
            (fmtEndDateStep_uid h2)).trans (fmtStartDateStep_uid h1)

/-- Membership in the candidate events implies the uid is not in the
sent ledger of the subscriber device. -/
theorem candidateEvents_uid_not_sent (ledger : Nat → String → List String)
    (events : List Event) (sub : Subscriber) (e : Event)
    (he : e ∈ candidateEvents ledger events sub) :
    e.uid ∉ ledger sub.id sub.deviceId := by
  unfold candidateEvents remove_sent_events at he
  have := (List.mem_filter.mp he).2
  intro hmem
  rw [Bool.not_eq_eq_eq_not, Bool.not_true] at this
  exact absurd (List.elem_iff.mpr hmem) (by simpa [List.contains] using this)

/-- The events of the payload chosen by the branch tree are formatted
copies of today or tomorrow events. -/
theorem choosePayload_events (sub : Subscriber) (nowTime : Nat) (eT eTm : List Event)
    (nt : String) (pes : List Event)
    (h : choosePayload sub nowTime eT eTm = some (nt, pes)) :
    ∀ e ∈ pes, ∃ e0, (e0 ∈ eT ∨ e0 ∈ eTm) ∧ e = formatEventForDisplay e0 := by
  unfold choosePayload at h
  intro e he
  have transfer : ∀ l : List Event, (∀ x ∈ l, x ∈ eT ∨ x ∈ eTm) →
      pes = l.map formatEventForDisplay →
      ∃ e0, (e0 ∈ eT ∨ e0 ∈ eTm) ∧ e = formatEventForDisplay e0 := by
    intro l hl hp
    subst hp
    obtain ⟨e0, he0, rfl⟩ := List.mem_map.mp he
    exact ⟨e0, hl e0 he0, rfl⟩
  repeat' split at h
  all_goals try cases h
  all_goals
    first
    | exact transfer (eT ++ eTm) (fun x hx => List.mem_append.mp hx) rfl
    | exact transfer eT (fun x hx => Or.inl hx) rfl

/-- Everything _post_and_store stores comes from the uid list it was
given (and is a truthy uid). -/
theorem postAndStore_stored_sub (env : PostEnv) (idsT : Bool) (uids : List String) :
    ∀ v ∈ (postAndStore env idsT uids).stored, v ∈ uids ∧ v ≠ "" := by
  intro v hv
  unfold postAndStore at hv
  split at hv
  · simp at hv
  · simp only at hv
    split at hv
    · have := List.mem_filter.mp hv
      refine ⟨this.1, ?_⟩
      simpa using this.2
    · simp at hv

/-- Everything the last-minute loop stores is the uid of one of its
events. -/
theorem lastMinuteLoop_stored (env : Nat → PostEnv) (idsT : Bool) (ep : String)
    (td tm : PyDate) :
    ∀ (evs : List Event) (i : Nat) (v : String),
      v ∈ (lastMinuteLoop env idsT ep td tm i evs).2 → ∃ e ∈ evs, e.uid = v := by
  intro evs
  induction evs with
  | nil => intro i v hv; simp [lastMinuteLoop] at hv
  | cons ev rest ih =>
    intro i v hv
    have fromUids : v ∈ (postAndStore (env i) idsT
        (if ev.uid != "" then [ev.uid] else [])).stored → ∃ e ∈ ev :: rest, e.uid = v := by
      intro hL
      have hm : v ∈ (if ev.uid != "" then [ev.uid] else []) :=
        (postAndStore_stored_sub (env i) idsT _ v hL).1
      split at hm
      · simp at hm
        exact ⟨ev, by simp, hm.symm⟩
      · simp at hm
    unfold lastMinuteLoop at hv
    by_cases hrem : (postAndStore (env i) idsT
        (if ev.uid != "" then [ev.uid] else [])).removed = true
    · rw [if_pos hrem] at hv
      exact fromUids hv
    · rw [if_neg hrem] at hv
      rcases List.mem_append.mp hv with hL | hR
      · exact fromUids hL
      · obtain ⟨e, he, hev⟩ := ih (i + 1) v hR
        exact ⟨e, by simp [he], hev⟩

/-- Everything a successful send_push_notification call stores is the
uid of one of the events it was asked to send. -/
theorem sendPushNotification_stored (env : Nat → PostEnv) (idsT : Bool) (ep : String)
    (evs : List Event) (nt : String) (td tm : PyDate) (o : SendOutcome)
    (h : sendPushNotification env idsT ep evs nt td tm = .ok o) :
    ∀ v ∈ o.stored, ∃ e ∈ evs, e.uid = v := by
  intro v hv
  unfold sendPushNotification at h
  by_cases hnt : (nt == "Daily Notification") = true
  · rw [if_pos hnt] at h
    by_cases hc : evs.length > 1
    · rw [if_pos hc] at h
      cases h
      have := postAndStore_stored_sub (env 0) idsT _ v hv
      obtain ⟨e, he, hfe⟩ := List.mem_filterMap.mp this.1
      refine ⟨e, he, ?_⟩
      revert hfe
      split
      · intro hfe; exact (Option.some.inj hfe)
      · intro hfe; cases hfe
    · rw [if_neg hc] at h
      cases evs with
      | nil => cases h
      | cons e0 tail =>
        cases h
        have hm : v ∈ (if e0.uid != "" then [e0.uid] else []) :=
          (postAndStore_stored_sub (env 0) idsT _ v hv).1
        split at hm
        · simp at hm
          exact ⟨e0, by simp, hm.symm⟩
        · simp at hm
  · rw [if_neg hnt] at h
    cases h
    exact lastMinuteLoop_stored env idsT ep td tm evs 0 v hv

/-- A definitional restatement of processSubscriber used for rewriting. -/
theorem processSubscriber_eq (env : Nat → PostEnv) (ledger : Nat → String → List String)
    (events : List Event) (now : Int) (sub : Subscriber) :
    processSubscriber env ledger events now sub =
      match choosePayload sub (nowTimeOf now) (todayEvents ledger events sub now)
          (tomorrowEvents ledger events sub now) with
      | none => ⟨0, 0, [], [], []⟩
      | some (nt, pes) =>
          dispatchResult (nt, pes)
            (sendPushNotification env ((sub.id != 0) && (sub.deviceId != "")) sub.endpoint
              pes nt (civilOfMinutes now) (dateAfter (civilOfMinutes now))) := rfl

/-- processSubscriber when some branch fires. -/
theorem processSubscriber_some (env : Nat → PostEnv) (ledger : Nat → String → List String)
    (events : List Event) (now : Int) (sub : Subscriber) (nt : String) (pes : List Event)
    (hcp : choosePayload sub (nowTimeOf now) (todayEvents ledger events sub now)
      (tomorrowEvents ledger events sub now) = some (nt, pes)) :
    processSubscriber env ledger events now sub =
      dispatchResult (nt, pes)
        (sendPushNotification env ((sub.id != 0) && (sub.deviceId != "")) sub.endpoint
          pes nt (civilOfMinutes now) (dateAfter (civilOfMinutes now))) := by
  rw [processSubscriber_eq, hcp]

/-- processSubscriber when no branch fires. -/
theorem processSubscriber_none (env : Nat → PostEnv) (ledger : Nat → String → List String)
    (events : List Event) (now : Int) (sub : Subscriber)
    (hcp : choosePayload sub (nowTimeOf now) (todayEvents ledger events sub now)
      (tomorrowEvents ledger events sub now) = none) :
    processSubscriber env ledger events now sub = ⟨0, 0, [], [], []⟩ := by
  rw [processSubscriber_eq, hcp]

/-- Claim C2: once a (subscriber, device, uid) triple is in the sent
ledger at the start of a pass, the pass makes no send call containing
an event with that uid for that subscriber device, and does not record
that uid again: a second pass with the same ledger state produces zero
re-deliveries of the event. -/
theorem c2_no_redelivery (env : Nat → PostEnv) (ledger : Nat → String → List String)
    (events : List Event) (now : Int) (sub : Subscriber) (u : String)
    (hu : u ∈ ledger sub.id sub.deviceId) :
    (∀ c ∈ (processSubscriber env ledger events now sub).calls, ∀ e ∈ c.2, e.uid ≠ u)
  ∧ u ∉ (processSubscriber env ledger events now sub).stored := by
  have key : ∀ nt pes, choosePayload sub (nowTimeOf now) (todayEvents ledger events sub now)
      (tomorrowEvents ledger events sub now) = some (nt, pes) →
      ∀ e ∈ pes, e.uid ≠ u := by
    intro nt pes hcp e he
    obtain ⟨e0, he0, rfl⟩ := choosePayload_events _ _ _ _ _ _ hcp e he
    have he0c : e0 ∈ candidateEvents ledger events sub := by
      cases he0 with
      | inl h => exact (List.mem_filter.mp h).1
      | inr h => exact (List.mem_filter.mp h).1
    rw [formatEventForDisplay_uid]
    intro hEq
    exact candidateEvents_uid_not_sent ledger events sub e0 he0c (hEq ▸ hu)
  cases hcp : choosePayload sub (nowTimeOf now) (todayEvents ledger events sub now)
      (tomorrowEvents ledger events sub now) with
  | none => rw [processSubscriber_none env ledger events now sub hcp]; simp
  | some p =>
    obtain ⟨nt, pes⟩ := p
    rw [processSubscriber_some env ledger events now sub nt pes hcp]
    constructor
    · intro c hc e he
      rw [dispatchResult_calls] at hc
      simp at hc
      subst hc
      exact key nt pes hcp e he
    · intro hstored
      cases hsend : sendPushNotification env ((sub.id != 0) && (sub.deviceId != ""))
          sub.endpoint pes nt (civilOfMinutes now) (dateAfter (civilOfMinutes now)) with
      | ok o =>
        rw [hsend] at hstored
        simp only [dispatchResult] at hstored
        obtain ⟨e, he, hev⟩ :=
          sendPushNotification_stored _ _ _ _ _ _ _ _ hsend u hstored
        exact key nt pes hcp e he hev
      | error err =>
        rw [hsend] at hstored
        simp [dispatchResult] at hstored

/-- Claim C3: a sent record is written only after the backend confirms
with HTTP 200; every non-200 status and every transport exception
leaves the dedup store unchanged. -/
theorem c3_store_only_on_200 (env : PostEnv) (idsT : Bool) (uids : List String) :
    ((postAndStore env idsT uids).stored ≠ [] → env.outcome = .status 200)
  ∧ (∀ c, c ≠ 200 → ∀ sf, (postAndStore ⟨.status c, sf⟩ idsT uids).stored = [])
  ∧ (∀ sf, (postAndStore ⟨.exn, sf⟩ idsT uids).stored = []) := by
  refine ⟨?_, ?_, ?_⟩
  · intro hne
    obtain ⟨o, sf⟩ := env
    cases o with
    | exn => simp [postAndStore] at hne
    | status c =>
      simp only [postAndStore] at hne
      split at hne
      · rename_i hcond
        simp only [Bool.and_eq_true, beq_iff_eq] at hcond
        simp [hcond.1.1.1]
      · simp at hne
  · intro c hc sf
    simp [postAndStore, hc]
  · intro sf
    simp [postAndStore]

theorem c3_store_only_on_200_witness :
    (postAndStore ⟨.status 500, false⟩ true ["u1"]).stored = [] :=
  (c3_store_only_on_200 ⟨.status 500, false⟩ true ["u1"]).2.1 500 (by decide) false

/-- Claim C10: when the POST returns 200 but the dedup-store write
raises, the exception is swallowed, the call still reports success, no
record reaches the ledger, and the event stays a candidate for a later
pass with the same ledger state. -/
theorem c10_store_failure_swallowed (idsT : Bool) (uids sent : List String) (e : Event) :
    ((postAndStore ⟨.status 200, true⟩ idsT uids).ok = true)
  ∧ ((postAndStore ⟨.status 200, true⟩ idsT uids).stored = [])
  ∧ (e.uid ∉ sent → remove_sent_events [e] sent = [e]) := by
  refine ⟨by simp [postAndStore], by simp [postAndStore], ?_⟩
  intro hn
  simp [remove_sent_events, hn]

theorem c10_store_failure_swallowed_witness :
    remove_sent_events [{ uid := "u1" }] ["u9"] = [{ uid := "u1" }] :=
  (c10_store_failure_swallowed true ["u1"] ["u9"] { uid := "u1" }).2.2 (by decide)

/-- Claim C1 concerns the scheduled daily branch with
notification_day_before set, inside the daily window, with an empty
union of today and tomorrow events: the spec asks for a Daily
notification even when empty, but send_push_notification indexes
events[0] and raises IndexError before any POST, so main counts an
error and no notification. -/
theorem c1_daily_empty_raises :
    (sendPushNotification (fun _ => ⟨.status 200, false⟩) true "ep" [] "Daily Notification"
        ⟨2024, 3, 10⟩ ⟨2024, 3, 11⟩ = .error .indexError)
  ∧ (processSubscriber (fun _ => ⟨.status 200, false⟩) (fun _ _ => []) []
        (civilMinutes ⟨2024, 3, 10⟩ 8 5)
        ⟨1, "dev", "ep", "e", ["lab"], true, true, 480⟩
      = ⟨0, 1, [("Daily Notification", [])], [], []⟩)
  ∧ (480 ≤ nowTimeOf (civilMinutes ⟨2024, 3, 10⟩ 8 5)
      ∧ nowTimeOf (civilMinutes ⟨2024, 3, 10⟩ 8 5) ≤ deadlineOf 480) := by
  refine ⟨rfl, by decide, by decide⟩

/-- Claim C8: in immediate mode the policy is stateless: with a
non-empty union of today and tomorrow candidates exactly one
last-minute-labeled call carrying that union is made; with both
buckets empty nothing at all happens for the subscriber. -/
theorem c8_immediate_mode (env : Nat → PostEnv) (ledger : Nat → String → List String)
    (events : List Event) (now : Int) (sub : Subscriber)
    (h : sub.sendPushWithNotifications = false) :
    ((processSubscriber env ledger events now sub).calls =
      if todayEvents ledger events sub now ++ tomorrowEvents ledger events sub now = [] then []
      else [("Last Minute Notification",
            (todayEvents ledger events sub now ++ tomorrowEvents ledger events sub now).map
              formatEventForDisplay)])
  ∧ (todayEvents ledger events sub now ++ tomorrowEvents ledger events sub now = [] →
      processSubscriber env ledger events now sub = ⟨0, 0, [], [], []⟩) := by
  by_cases hc : todayEvents ledger events sub now ++ tomorrowEvents ledger events sub now = []
  · obtain ⟨h1, h2⟩ := List.append_eq_nil.mp hc
    have hcp : choosePayload sub (nowTimeOf now) (todayEvents ledger events sub now)
        (tomorrowEvents ledger events sub now) = none := by
      simp [choosePayload, h, h1, h2]
    rw [processSubscriber_none env ledger events now sub hcp]
    exact ⟨by simp [hc], fun _ => rfl⟩
  · have hne : (!(todayEvents ledger events sub now).isEmpty
        || !(tomorrowEvents ledger events sub now).isEmpty) = true := by
      rcases (not_and_or.mp (fun hand => hc (List.append_eq_nil.mpr hand))) with h1 | h1 <;>
        simp [List.isEmpty_iff, h1]
    have hcp : choosePayload sub (nowTimeOf now) (todayEvents ledger events sub now)
        (tomorrowEvents ledger events sub now) =
        some ("Last Minute Notification",
          (todayEvents ledger events sub now ++ tomorrowEvents ledger events sub now).map
            formatEventForDisplay) := by
      unfold choosePayload
      rw [h]
      simp only [Bool.false_eq_true, if_false]
      rw [if_pos hne]
    rw [processSubscriber_some env ledger events now sub _ _ hcp, dispatchResult_calls,
      if_neg hc]
    exact ⟨rfl, fun habs => absurd habs hc⟩

/-- A POST oracle that always answers 200 with a working store. -/
def envOK : Nat → PostEnv := fun _ => ⟨.status 200, false⟩

/-- An empty sent ledger. -/
def noLedger : Nat → String → List String := fun _ _ => []

/-- A concrete candidate event for 2024-03-10. -/
def evLab : Event := { uid := "u1", summary := some "Lab x", startDate := some "2024-03-10" }

/-- 2024-03-10 08:05 in Rome wall minutes. -/
def nowMar10 : Int := civilMinutes ⟨2024, 3, 10⟩ 8 5

/-- A subscriber in immediate mode. -/
def subImm : Subscriber := ⟨1, "dev", "ep", "e", ["lab"], false, false, 480⟩

theorem c8_immediate_mode_witness :
    (processSubscriber envOK noLedger [evLab] nowMar10 subImm).calls =
      if todayEvents noLedger [evLab] subImm nowMar10
          ++ tomorrowEvents noLedger [evLab] subImm nowMar10 = [] then []
      else [("Last Minute Notification",
        (todayEvents noLedger [evLab] subImm nowMar10
          ++ tomorrowEvents noLedger [evLab] subImm nowMar10).map formatEventForDisplay)] :=
  (c8_immediate_mode envOK noLedger [evLab] nowMar10 subImm rfl).1

/-- Claim C4: scheduled mode without day-before notice.  Inside the
daily window a Daily call with exactly the today bucket is made iff
that bucket is non-empty; outside the window a LastMinute call with
exactly the today bucket is made iff the bucket is non-empty and the
time of day is strictly past the deadline; otherwise nothing. -/
theorem c4_scheduled_no_daybefore (env : Nat → PostEnv) (ledger : Nat → String → List String)
    (events : List Event) (now : Int) (sub : Subscriber)
    (hA : sub.sendPushWithNotifications = true) (hB : sub.notificationDayBefore = false) :
    (processSubscriber env ledger events now sub).calls =
      (if sub.notificationTime ≤ nowTimeOf now
          && nowTimeOf now ≤ deadlineOf sub.notificationTime then
        if (todayEvents ledger events sub now).isEmpty then []
        else [("Daily Notification",
              (todayEvents ledger events sub now).map formatEventForDisplay)]
      else if !(todayEvents ledger events sub now).isEmpty
          && decide (deadlineOf sub.notificationTime < nowTimeOf now) then
        [("Last Minute Notification",
          (todayEvents ledger events sub now).map formatEventForDisplay)]
      else []) := by
  by_cases hw : (sub.notificationTime ≤ nowTimeOf now
      && nowTimeOf now ≤ deadlineOf sub.notificationTime) = true
  · by_cases he : (todayEvents ledger events sub now).isEmpty = true
    · have hcp : choosePayload sub (nowTimeOf now) (todayEvents ledger events sub now)
          (tomorrowEvents ledger events sub now) = none := by
        simp [choosePayload, hA, hB, hw, he]
      rw [processSubscriber_none env ledger events now sub hcp, if_pos hw, if_pos he]
    · have hcp : choosePayload sub (nowTimeOf now) (todayEvents ledger events sub now)
          (tomorrowEvents ledger events sub now) =
          some ("Daily Notification",
            (todayEvents ledger events sub now).map formatEventForDisplay) := by
        simp [choosePayload, hA, hB, hw, he]
      rw [processSubscriber_some env ledger events now sub _ _ hcp, dispatchResult_calls,
        if_pos hw, if_neg he]
  · by_cases hne : (!(todayEvents ledger events sub now).isEmpty) = true
    · by_cases hlt : deadlineOf sub.notificationTime < nowTimeOf now
      · have hcp : choosePayload sub (nowTimeOf now) (todayEvents ledger events sub now)
            (tomorrowEvents ledger events sub now) =
            some ("Last Minute Notification",
              (todayEvents ledger events sub now).map formatEventForDisplay) := by
          simp [choosePayload, hA, hB, hw, hne, hlt]
        rw [processSubscriber_some env ledger events now sub _ _ hcp, dispatchResult_calls,
          if_neg hw, if_pos (by simp [hne, hlt])]
      · have hcp : choosePayload sub (nowTimeOf now) (todayEvents ledger events sub now)
            (tomorrowEvents ledger events sub now) = none := by
          simp [choosePayload, hA, hB, hw, hne, hlt]
        rw [processSubscriber_none env ledger events now sub hcp, if_neg hw,
          if_neg (by simp [hlt])]
    · have hcp : choosePayload sub (nowTimeOf now) (todayEvents ledger events sub now)
          (tomorrowEvents ledger events sub now) = none := by
        simp only [Bool.not_eq_true] at hne
        simp [choosePayload, hA, hB, hw, hne]
      rw [processSubscriber_none env ledger events now sub hcp, if_neg hw,
        if_neg (by simp_all)]

/-- A subscriber in scheduled mode without day-before notice. -/
def subSched : Subscriber := ⟨1, "dev", "ep", "e", ["lab"], true, false, 480⟩

theorem c4_scheduled_no_daybefore_witness :
    (processSubscriber envOK noLedger [evLab] nowMar10 subSched).calls =
      (if subSched.notificationTime ≤ nowTimeOf nowMar10
          && nowTimeOf nowMar10 ≤ deadlineOf subSched.notificationTime then
        if (todayEvents noLedger [evLab] subSched nowMar10).isEmpty then []
        else [("Daily Notification",
              (todayEvents noLedger [evLab] subSched nowMar10).map formatEventForDisplay)]
      else if !(todayEvents noLedger [evLab] subSched nowMar10).isEmpty
          && decide (deadlineOf subSched.notificationTime < nowTimeOf nowMar10) then
        [("Last Minute Notification",
          (todayEvents noLedger [evLab] subSched nowMar10).map formatEventForDisplay)]
      else []) :=
  c4_scheduled_no_daybefore envOK noLedger [evLab] nowMar10 subSched rfl rfl

/-- A ledger that already contains uid u1 for every device. -/
def ledgerU1 : Nat → String → List String := fun _ _ => ["u1"]

theorem c2_no_redelivery_witness :
    (∀ c ∈ (processSubscriber envOK ledgerU1 [evLab] nowMar10 subSched).calls,
        ∀ e ∈ c.2, e.uid ≠ "u1")
  ∧ "u1" ∉ (processSubscriber envOK ledgerU1 [evLab] nowMar10 subSched).stored :=
  c2_no_redelivery envOK ledgerU1 [evLab] nowMar10 subSched "u1" (by decide)

/-- Whether a PostEnv answer makes the loop treat the endpoint as
removed: a 403, 404 or 410 status (an exception does not). -/
def envRemoved (p : PostEnv) : Bool :=
  match p.outcome with
  | .status c => removedStatus c
  | .exn => false

theorem postAndStore_removed (p : PostEnv) (idsT : Bool) (uids : List String) :
    (postAndStore p idsT uids).removed = envRemoved p := by
  obtain ⟨o, sf⟩ := p
  cases o <;> simp [postAndStore, envRemoved]

/-- The last-minute loop stops right after the first removed-status
POST: with the first removed answer at relative index k, exactly k+1
POSTs are made. -/
theorem lastMinuteLoop_length_of_removed (env : Nat → PostEnv) (idsT : Bool)
    (ep : String) (td tm : PyDate) :
    ∀ (l : List Event) (i k : Nat), k < l.length →
      envRemoved (env (i + k)) = true →
      (∀ j, j < k → envRemoved (env (i + j)) = false) →
      (lastMinuteLoop env idsT ep td tm i l).1.length = k + 1 := by
  intro l
  induction l with
  | nil => intro i k hk; exact absurd hk (by simp)
  | cons ev rest ih =>
    intro i k hk hrem hprev
    simp only [lastMinuteLoop]
    rw [postAndStore_removed]
    cases k with
    | zero =>
      rw [if_pos (by simpa using hrem)]
      rfl
    | succ k' =>
      have h0 : envRemoved (env i) = false := by
        have := hprev 0 (Nat.succ_pos k')
        simpa using this
      rw [if_neg (by simp [h0])]
      have hk' : k' < rest.length := by
        simpa [Nat.succ_lt_succ_iff] using hk
      have hrem' : envRemoved (env (i + 1 + k')) = true := by
        rwa [show i + 1 + k' = i + (k' + 1) by omega]
      have hprev' : ∀ j, j < k' → envRemoved (env (i + 1 + j)) = false := by
        intro j hj
        have := hprev (j + 1) (by omega)
        rwa [show i + (j + 1) = i + 1 + j by omega] at this
      simp [ih (i + 1) k' hk' hrem' hprev']

theorem runPassAux_length (envs : Nat → Nat → PostEnv) (ledger : Nat → String → List String)
    (events : List Event) (now : Int) :
    ∀ (subs : List Subscriber) (i : Nat),
      (runPassAux envs ledger events now i subs).length = subs.length := by
  intro subs
  induction subs with
  | nil => intro i; rfl
  | cons s rest ih => intro i; simp [runPassAux, ih (i + 1)]

/-- Claim C7: a removed-subscription status during a multi-event
last-minute dispatch stops the remaining per-event POSTs for that
endpoint (exactly k+1 POSTs when the first removed answer is the
k-th), the dispatch returns normally instead of raising, and the
subscriber loop still processes every subscriber. -/
theorem c7_removed_short_circuit :
    (∀ (env : Nat → PostEnv) (idsT : Bool) (ep : String) (td tm : PyDate)
        (events : List Event) (k : Nat),
        k < events.length → envRemoved (env k) = true →
        (∀ j, j < k → envRemoved (env j) = false) →
        ∃ o, sendPushNotification env idsT ep events "Last Minute Notification" td tm
            = .ok o
          ∧ o.posts.length = k + 1)
  ∧ (∀ (envs : Nat → Nat → PostEnv) (ledger : Nat → String → List String)
        (events : List Event) (now : Int) (subs : List Subscriber),
        (runPass envs ledger events now subs).length = subs.length) := by
  constructor
  · intro env idsT ep td tm events k hk hrem hprev
    refine ⟨⟨(lastMinuteLoop env idsT ep td tm 0 events).1,
             (lastMinuteLoop env idsT ep td tm 0 events).2⟩, ?_, ?_⟩
    · unfold sendPushNotification
      rw [if_neg (by decide)]
    · exact lastMinuteLoop_length_of_removed env idsT ep td tm events 0 k hk
        (by simpa using hrem) (by simpa using hprev)
  · intro envs ledger events now subs
    exact runPassAux_length envs ledger events now subs 0

/-- An oracle whose second POST reports 410 and the rest 200. -/
def envRem410 : Nat → PostEnv :=
  fun i => if i == 1 then ⟨.status 410, false⟩ else ⟨.status 200, false⟩

def evU2 : Event := { uid := "u2" }

def evU3 : Event := { uid := "u3" }

theorem c7_removed_short_circuit_witness :
    ∃ o, sendPushNotification envRem410 true "ep" [evLab, evU2, evU3]
        "Last Minute Notification" ⟨2024, 3, 10⟩ ⟨2024, 3, 11⟩ = .ok o
      ∧ o.posts.length = 1 + 1 :=
  c7_removed_short_circuit.1 envRem410 true "ep" ⟨2024, 3, 10⟩ ⟨2024, 3, 11⟩
    [evLab, evU2, evU3] 1 (by decide) (by decide) (by decide)

/-- Claim C5: start resolution prefers the timestamped field — an
unparseable value resolves to none with no fallback — else the
date-only field anchored at local midnight, else none; an event is
bucketed iff its resolved start lies in the 24-hour window, and an
unresolved start is in no bucket. -/
theorem c5_start_resolution_and_bucketing :
    (∀ (e : Event) (s : String), tstr e.startDateTime = some s → isoRomeWall s = none →
        event_start_dt e = none)
  ∧ (∀ (e : Event) (s : String) (d : PyDate), tstr e.startDateTime = none →
        tstr e.startDate = some s → strptimeYMD s = some d →
        event_start_dt e = some (civilMinutes d 0 0))
  ∧ (∀ e : Event, tstr e.startDateTime = none → tstr e.startDate = none →
        event_start_dt e = none)
  ∧ (∀ (e : Event) (b : Int), event_start_dt e = none → in_day e b = false)
  ∧ (∀ (e : Event) (b t : Int), event_start_dt e = some t →
        (in_day e b = true ↔ b ≤ t ∧ t < b + 1440)) := by
  refine ⟨?_, ?_, ?_, ?_, ?_⟩
  · intro e s h1 h2
    unfold event_start_dt
    rw [h1]
    exact h2
  · intro e s d h1 h2 h3
    unfold event_start_dt
    rw [h1, h2]
    show (match strptimeYMD s with
          | some d => some (civilMinutes d 0 0)
          | none => none) = some (civilMinutes d 0 0)
    rw [h3]
  · intro e h1 h2
    unfold event_start_dt
    rw [h1, h2]
  · intro e b h
    unfold in_day
    rw [h]
  · intro e b t h
    unfold in_day
    rw [h]
    simp

/-- The event of the C5 example, with a timestamped start. -/
def evISO : Event := { uid := "e9", startDateTime := some "2024-03-10T09:00:00+01:00" }

/-- 2024-03-10 09:00 Rome in wall minutes. -/
def tISO : Int := civilMinutes ⟨2024, 3, 10⟩ 9 0

/-- 2024-03-10 08:00 Rome. -/
def nowA : Int := civilMinutes ⟨2024, 3, 10⟩ 8 0

/-- 2024-03-09 23:00 Rome. -/
def nowB : Int := civilMinutes ⟨2024, 3, 9⟩ 23 0

theorem c5_start_resolution_and_bucketing_witness :
    in_day evISO (todayStartOf nowA) = true
  ∧ in_day evISO (todayStartOf nowB + 1440) = true
  ∧ in_day evISO (todayStartOf nowB) = false := by
  have h5 := c5_start_resolution_and_bucketing.2.2.2.2
  refine ⟨(h5 evISO (todayStartOf nowA) tISO (by decide)).mpr (by decide),
          (h5 evISO (todayStartOf nowB + 1440) tISO (by decide)).mpr (by decide), ?_⟩
  have hiff := h5 evISO (todayStartOf nowB) tISO (by decide)
  have hP : ¬(todayStartOf nowB ≤ tISO ∧ tISO < todayStartOf nowB + 1440) := by decide
  rcases Bool.eq_false_or_eq_true (in_day evISO (todayStartOf nowB)) with ht | hf
  · exact absurd (hiff.mp ht) hP
  · exact hf

/-- Claim C9: the body formatter renders a same-day date-only event
whose start date is today as Oggi plus the trimmed summary, and a
date-only event spanning two different days as a DD/MM - DD/MM range
plus the trimmed summary. -/
theorem c9_body_rules (ev : Event) (today tomorrow d d2 : PyDate)
    (hft : tstr ev.formattedTime = none) (hfe : tstr ev.formattedEndTime = none)
    (hedt : tstr ev.endDateTime = none) :
    (parseEventDatetime ev = ⟨some d, none, some d, none⟩ → d = today →
      buildBodyForEvent ev today tomorrow = "Oggi: " ++ trimStr (ev.summary.getD ""))
  ∧ (parseEventDatetime ev = ⟨some d, none, some d2, none⟩ → d ≠ d2 →
      buildBodyForEvent ev today tomorrow =
        fmtShort d ++ " - " ++ fmtShort d2 ++ ": " ++ trimStr (ev.summary.getD "")) := by
  constructor
  · intro hp htoday
    subst htoday
    simp [buildBodyForEvent, hp, hft, hfe, hedt, sameDayBody, dayLabelFor]
  · intro hp hne
    simp [buildBodyForEvent, hp, hft, hfe, hedt, hne]

/-- The same-day date-only example event of C9. -/
def evExamSame : Event :=
  { summary := some "Exam", startDate := some "2024-03-10", endDate := some "2024-03-10" }

/-- The two-day date-only example event of C9. -/
def evExamRange : Event :=
  { summary := some "Exam", startDate := some "2024-03-10", endDate := some "2024-03-12" }

theorem c9_body_rules_witness :
    buildBodyForEvent evExamSame ⟨2024, 3, 10⟩ ⟨2024, 3, 11⟩ = "Oggi: Exam"
  ∧ buildBodyForEvent evExamRange ⟨2024, 3, 10⟩ ⟨2024, 3, 11⟩ = "10/03 - 12/03: Exam" := by
  constructor
  · have h := (c9_body_rules evExamSame ⟨2024, 3, 10⟩ ⟨2024, 3, 11⟩ ⟨2024, 3, 10⟩
      ⟨2024, 3, 10⟩ rfl rfl rfl).1 (by rfl) rfl
    exact h.trans (by rfl)
  · have h := (c9_body_rules evExamRange ⟨2024, 3, 10⟩ ⟨2024, 3, 11⟩ ⟨2024, 3, 10⟩
      ⟨2024, 3, 12⟩ rfl rfl rfl).2 (by rfl) (by decide)
    exact h.trans (by rfl)

/-! ## The word-bounded search characterized by list decompositions -/

theorem isPfx_iff (kw : List Char) : ∀ l, isPfx kw l = true ↔ ∃ t, l = kw ++ t := by
  induction kw with
  | nil => intro l; simp [isPfx]
  | cons a as ih =>
    intro l
    cases l with
    | nil => simp [isPfx]
    | cons b bs =>
      simp only [isPfx, Bool.and_eq_true, beq_iff_eq]
      constructor
      · rintro ⟨rfl, h⟩
        obtain ⟨t, rfl⟩ := (ih bs).mp h
        exact ⟨t, rfl⟩
      · rintro ⟨t, ht⟩
        injection ht with h1 h2
        exact ⟨h1.symm, (ih bs).mpr ⟨t, h2⟩⟩

theorem get?_append_len (l1 l2 : List Char) : (l1 ++ l2).get? l1.length = l2.head? := by
  rw [List.get?_append_right (Nat.le_refl _)]
  simp [List.get?_eq_getElem?, List.head?_eq_getElem?]

theorem boundaryAt_append (pre rest : List Char) :
    boundaryAt (pre ++ rest) pre.length = (wOptB pre.getLast? != wOptB rest.head?) := by
  unfold boundaryAt
  rw [get?_append_len]
  cases pre with
  | nil => simp
  | cons a as =>
    rw [if_neg (by simp)]
    rw [List.get?_append (by simp)]
    rw [← List.getLast?_eq_get?]

theorem bMatchAt_iff (s kw : List Char) (i : Nat) (hi : i ≤ s.length) :
    bMatchAt s kw i = true ↔
      ∃ pre post, s = pre ++ (kw ++ post) ∧ pre.length = i ∧
        (wOptB pre.getLast? != wOptB ((kw ++ post).head?)) = true ∧
        (wOptB (pre ++ kw).getLast? != wOptB post.head?) = true := by
  unfold bMatchAt
  simp only [Bool.and_eq_true]
  constructor
  · rintro ⟨⟨hb1, hpfx⟩, hb2⟩
    obtain ⟨t, ht⟩ := (isPfx_iff kw (s.drop i)).mp hpfx
    obtain ⟨pre, hpre⟩ : ∃ pre, pre = s.take i := ⟨s.take i, rfl⟩
    have hlen : pre.length = i := by
      rw [hpre]
      simp [List.length_take]
      omega
    have hs : pre ++ (kw ++ t) = s := by
      rw [hpre, ← ht, List.take_append_drop]
    refine ⟨pre, t, hs.symm, hlen, ?_, ?_⟩
    · have hkey := boundaryAt_append pre (kw ++ t)
      rw [hs, hlen] at hkey
      rw [← hkey]
      exact hb1
    · have hkey := boundaryAt_append (pre ++ kw) t
      rw [List.append_assoc, hs] at hkey
      rw [← hkey, List.length_append, hlen]
      exact hb2
  · rintro ⟨pre, post, rfl, rfl, h3, h4⟩
    refine ⟨⟨?_, ?_⟩, ?_⟩
    · rw [boundaryAt_append]
      exact h3
    · rw [List.drop_left]
      exact (isPfx_iff kw _).mpr ⟨post, rfl⟩
    · rw [show pre.length + kw.length = (pre ++ kw).length by simp,
          show pre ++ (kw ++ post) = (pre ++ kw) ++ post from (List.append_assoc _ _ _).symm,
          boundaryAt_append]
      exact h4

theorem wordSearch_iff (s kw : List Char) :
    wordSearch s kw = true ↔
      ∃ pre post, s = pre ++ (kw ++ post) ∧
        (wOptB pre.getLast? != wOptB ((kw ++ post).head?)) = true ∧
        (wOptB (pre ++ kw).getLast? != wOptB post.head?) = true := by
  unfold wordSearch
  rw [List.any_eq_true]
  constructor
  · rintro ⟨i, hmem, hb⟩
    have hi : i ≤ s.length := by
      simp [List.mem_range] at hmem
      omega
    obtain ⟨pre, post, h1, _, h3, h4⟩ := (bMatchAt_iff s kw i hi).mp hb
    exact ⟨pre, post, h1, h3, h4⟩
  · rintro ⟨pre, post, h1, h3, h4⟩
    have hle : pre.length ≤ s.length := by
      rw [h1]
      simp
    refine ⟨pre.length, ?_,
      (bMatchAt_iff s kw pre.length hle).mpr ⟨pre, post, h1, rfl, h3, h4⟩⟩
    simp [List.mem_range, Nat.lt_succ_iff, hle]

/-- The whole-word OR-match of the spec, as a decomposition of the
lowercased text around a lowercased keyword occurrence with a word
boundary on each side. -/
def SpecWholeWord (title kw : String) : Prop :=
  ∃ pre post : List Char,
    lowerChars title = pre ++ (lowerChars kw ++ post) ∧
    (wOptB pre.getLast? != wOptB ((lowerChars kw ++ post).head?)) = true ∧
    (wOptB (pre ++ lowerChars kw).getLast? != wOptB post.head?) = true

theorem kwMatchTitle_iff (title kw : String) :
    kwMatchTitle title kw = true ↔ SpecWholeWord title kw := by
  unfold kwMatchTitle SpecWholeWord
  exact wordSearch_iff (lowerChars title) (lowerChars kw)

/-- The Lab 101 opens example event of C6. -/
def labEvt : Event := { uid := "u1", summary := some "Lab 101 opens" }

/-- Claim C6: an empty keyword set filters every input to nothing;
otherwise the result keeps exactly the input events whose normalized
summary contains some keyword as a case-insensitive whole-word match;
Lab 101 opens matches the keyword lab and not the keyword ab. -/
theorem c6_keyword_filter :
    (∀ events : List Event, filter_events_kw events [] = [])
  ∧ (∀ (events : List Event) (kws : List String) (e : Event), kws ≠ [] →
      (e ∈ filter_events_kw events kws ↔
        e ∈ events ∧ ∃ kw ∈ kws, SpecWholeWord (normalizeTitle (e.summary.getD "")) kw))
  ∧ filter_events_kw [labEvt] ["lab"] = [labEvt]
  ∧ filter_events_kw [labEvt] ["ab"] = [] := by
  refine ⟨fun events => rfl, ?_, by rfl, by rfl⟩
  intro events kws e hne
  unfold filter_events_kw
  rw [if_neg (by simpa [List.isEmpty_iff] using hne)]
  rw [List.mem_filter]
  have htitle : (match e.summary with
      | some s => normalizeTitle s
      | none => "") = normalizeTitle (e.summary.getD "") := by
    cases e.summary <;> rfl
  constructor
  · rintro ⟨hmem, hp⟩
    refine ⟨hmem, ?_⟩
    have hp' : kws.any (fun kw => kwMatchTitle (match e.summary with
        | some s => normalizeTitle s
        | none => "") kw) = true := hp
    rw [htitle, List.any_eq_true] at hp'
    obtain ⟨kw, hkw, hmatch⟩ := hp'
    exact ⟨kw, hkw, (kwMatchTitle_iff _ _).mp hmatch⟩
  · rintro ⟨hmem, kw, hkw, hspec⟩
    refine ⟨hmem, ?_⟩
    show kws.any (fun kw => kwMatchTitle (match e.summary with
        | some s => normalizeTitle s
        | none => "") kw) = true
    rw [htitle, List.any_eq_true]
    exact ⟨kw, hkw, (kwMatchTitle_iff _ _).mpr hspec⟩

theorem c6_keyword_filter_witness :
    labEvt ∈ filter_events_kw [labEvt] ["lab"] := by
  apply (c6_keyword_filter.2.1 [labEvt] ["lab"] labEvt (by simp)).mpr
  exact ⟨by simp, "lab", by simp, ⟨[], " 101 opens".data, by rfl, by rfl, by rfl⟩⟩
